import Mathlib

/-!
Shallow embedding of `process_data/process_data.py`, a single-file pipeline
that aggregates survey answers (EVS 2017) per country: two score mappers
(`a_adp`, `a_div`), a respondent classifier (`process_participant`), a
per-country aggregator (`process_country`) and a driver building the output
table.

Modelling conventions:
* a dataframe is a `List Row`; each `Row` carries the five columns the
  script uses (`c_abrv`, `caseno`, `v6`, `v82`, `v155`).  Column values are
  plain strings; a missing value behaves exactly like an unrecognized
  string in the source (dictionary lookup / `int()` raise, caught to
  `None`), so missing is represented by any unrecognized string.
* Python floats are modelled by `ℚ`: every arithmetic step of the script
  (`-(r - 3) / 2`, `(v - 5.5) / 4.5`, running sums of such values and
  their division by an integer count) is reproduced literally over `ℚ`.
* fallible code returns `Except Unit`: `.error ()` stands for an uncaught
  Python exception (`IndexError` of `.iloc[0]`, `ZeroDivisionError` of
  `sum/count`, `NameError` of the driver on an empty country list).
-/

instance {ε α : Type} [DecidableEq ε] [DecidableEq α] :
    DecidableEq (Except ε α) := fun a b =>
  match a, b with
  | .error e, .error f =>
    if h : e = f then isTrue (by subst h; rfl)
    else isFalse (fun hh => h (by injection hh))
  | .error _, .ok _ => isFalse (fun hh => Except.noConfusion hh)
  | .ok _, .error _ => isFalse (fun hh => Except.noConfusion hh)
  | .ok x, .ok y =>
    if h : x = y then isTrue (by subst h; rfl)
    else isFalse (fun hh => h (by injection hh))

/-- One row of the dataframe, restricted to the five columns the script
reads: country code `c_abrv`, case identifier `caseno`, religiosity
importance `v6`, adoption attitude `v82`, divorce attitude `v155`. -/
structure Row where
  c_abrv : String
  caseno : Int
  v6 : String
  v82 : String
  v155 : String
deriving DecidableEq

/-- No two adjacent underscores (part of CPython's rule for underscores in
integer literals accepted by `int(str)`). -/
def noDoubleUS : List Char → Bool
  | [] => true
  | [_] => true
  | a :: b :: rest => (!(a == '_' && b == '_')) && noDoubleUS (b :: rest)

/-- Numeric value of a list of decimal digits (underscores removed). -/
def digitsVal (l : List Char) : Nat :=
  l.foldl (fun a c => 10 * a + (c.toNat - '0'.toNat)) 0

/-- The digit part accepted by CPython `int(str)` after sign removal:
nonempty, made of ASCII digits and underscores, beginning and ending with a
digit, with no two adjacent underscores. -/
def pyDigits (l : List Char) : Option Nat :=
  match l.head?, l.getLast? with
  | some c0, some c1 =>
    if c0.isDigit && c1.isDigit && l.all (fun c => c.isDigit || c == '_')
        && noDoubleUS l then
      some (digitsVal (l.filter Char.isDigit))
    else none
  | _, _ => none

/-- Strip leading and trailing whitespace, as `int(str)` does before
parsing (ASCII whitespace modelled). -/
def pyStrip (s : String) : List Char :=
  ((s.toList.dropWhile Char.isWhitespace).reverse.dropWhile
    Char.isWhitespace).reverse

/-- Model of CPython `int(s)` on a string `s`: optional surrounding
whitespace, optional sign, decimal digits with optional single underscores
between digits.  `none` models the `ValueError` the source catches. -/
def pyInt (s : String) : Option Int :=
  match pyStrip s with
  | '+' :: rest => (pyDigits rest).map (fun n => (n : Int))
  | '-' :: rest => (pyDigits rest).map (fun n => -(n : Int))
  | l => (pyDigits l).map (fun n => (n : Int))

/-- Model of `category_dic` in `a_adp`: the five recognized adoption-attitude
categories and their ranks; `none` models the `KeyError` on any other
(or missing) value. -/
def categoryDic (s : String) : Option Nat :=
  if s = "agree strongly" then some 1
  else if s = "agree" then some 2
  else if s = "neither agree nor disagree" then some 3
  else if s = "disagree" then some 4
  else if s = "disagree strongly" then some 5
  else none

/-- Model of `a_adp(element)`: rank the `v82` category through `category_dic` and
return `-(rank - 3) / 2`; any exception (unrecognized or missing category)
yields `None`. -/
def a_adp (element : Row) : Option ℚ :=
  (categoryDic element.v82).map (fun r => -((r : ℚ) - 3) / 2)

/-- Model of `a_div(element)`: `never ↦ 1`, `always ↦ 10`, anything else parsed by
`int()`; the score is `(value - 5.5) / 4.5` (here `(v - 11/2) / (9/2)`),
and a parse failure yields `None`.  The source performs no range check on
the parsed integer. -/
def a_div (element : Row) : Option ℚ :=
  let iv : Option Int :=
    if element.v155 = "never" then some 1
    else if element.v155 = "always" then some 10
    else pyInt element.v155
  iv.map (fun v => ((v : ℚ) - 11 / 2) / (9 / 2))

/-- The classification `process_participant` performs once it holds a row:
religiosity flag from `v6` (`none` = undetermined, the respondent is
excluded), paired with both scores.  The source computes both scores even
when religiosity is undetermined, then discards them; that is
unobservable, so the scores appear only in the classified case. -/
def classifyRow (row : Row) : Option (Bool × Option ℚ × Option ℚ) :=
  if row.v6 = "not at all important" ∨ row.v6 = "not important" then
    some (false, a_adp row, a_div row)
  else if row.v6 = "quite important" ∨ row.v6 = "very important" then
    some (true, a_adp row, a_div row)
  else none

/-- Model of `process_participant(dataframe, caseno)`: select the first row whose
`caseno` matches (`.iloc[0]`, an `IndexError` — `.error ()` — when no row
matches) and classify it.  `.ok none` is the source's `return None`
(excluded respondent). -/
def process_participant (dataframe : List Row) (caseno : Int) :
    Except Unit (Option (Bool × Option ℚ × Option ℚ)) :=
  match (dataframe.filter (fun r => r.caseno == caseno)).head? with
  | none => .error ()
  | some row => .ok (classifyRow row)

/-- The ten counters `process_country` maintains. -/
structure Counters where
  n_religious : Nat
  n_nonreligious : Nat
  n_rel_adp : Nat
  n_nonrel_adp : Nat
  n_rel_div : Nat
  n_nonrel_div : Nat
  sum_a_adp_rel : ℚ
  sum_a_adp_nonrel : ℚ
  sum_a_div_rel : ℚ
  sum_a_div_nonrel : ℚ
deriving DecidableEq

/-- All counters zero, as initialized at the top of `process_country`. -/
def initCounters : Counters :=
  ⟨0, 0, 0, 0, 0, 0, 0, 0, 0, 0⟩

/-- Effect of one classified respondent on the counters: the religiosity
group counter is incremented unconditionally; each score, when present,
feeds its group-specific count and running sum. -/
def applyTuple (st : Counters) (t : Bool × Option ℚ × Option ℚ) :
    Counters :=
  match t with
  | (true, adp, div) =>
    let st1 := { st with n_religious := st.n_religious + 1 }
    let st2 :=
      match adp with
      | some v =>
        { st1 with
          n_rel_adp := st1.n_rel_adp + 1
          sum_a_adp_rel := st1.sum_a_adp_rel + v }
      | none => st1
    match div with
    | some v =>
      { st2 with
        n_rel_div := st2.n_rel_div + 1
        sum_a_div_rel := st2.sum_a_div_rel + v }
    | none => st2
  | (false, adp, div) =>
    let st1 := { st with n_nonreligious := st.n_nonreligious + 1 }
    let st2 :=
      match adp with
      | some v =>
        { st1 with
          n_nonrel_adp := st1.n_nonrel_adp + 1
          sum_a_adp_nonrel := st1.sum_a_adp_nonrel + v }
      | none => st1
    match div with
    | some v =>
      { st2 with
        n_nonrel_div := st2.n_nonrel_div + 1
        sum_a_div_nonrel := st2.sum_a_div_nonrel + v }
    | none => st2

/-- The `for i in range(0, n_row)` loop of `process_country`: for each row
of the country frame, look the row up again by its `caseno` through
`process_participant` and update the counters; `if tuple_:` skips the
excluded (`None`) respondents.  An exception inside the loop propagates. -/
def countryLoop (dfc : List Row) : List Row → Counters →
    Except Unit Counters
  | [], st => .ok st
  | r :: rs, st =>
    match process_participant dfc r.caseno with
    | .error e => .error e
    | .ok none => countryLoop dfc rs st
    | .ok (some t) => countryLoop dfc rs (applyTuple st t)

/-- The country filter `dataframe[dataframe['c_abrv'] == country]`. -/
def countryFrame (dataframe : List Row) (country : String) : List Row :=
  dataframe.filter (fun r => r.c_abrv == country)

/-- The dict `process_country` returns: two group counts and four group
means. -/
structure CountryAgg where
  rel : Nat
  nonrel : Nat
  a_adp_rel : ℚ
  a_adp_nonrel : ℚ
  a_div_rel : ℚ
  a_div_nonrel : ℚ
deriving DecidableEq

/-- Model of `process_country(dataframe, country)`: filter to the country, run the
counting loop, then build the result dict whose four means are computed as
`sum / count` with no zero guard — when a count is `0` the Python division
raises `ZeroDivisionError`, modelled as `.error ()`. -/
def process_country (dataframe : List Row) (country : String) :
    Except Unit CountryAgg :=
  let dfc := countryFrame dataframe country
  match countryLoop dfc dfc initCounters with
  | .error e => .error e
  | .ok st =>
    if st.n_rel_adp = 0 ∨ st.n_nonrel_adp = 0 ∨ st.n_rel_div = 0 ∨
        st.n_nonrel_div = 0 then .error ()
    else .ok { rel := st.n_religious,
               nonrel := st.n_nonreligious,
               a_adp_rel := st.sum_a_adp_rel / (st.n_rel_adp : ℚ),
               a_adp_nonrel := st.sum_a_adp_nonrel / (st.n_nonrel_adp : ℚ),
               a_div_rel := st.sum_a_div_rel / (st.n_rel_div : ℚ),
               a_div_nonrel := st.sum_a_div_nonrel / (st.n_nonrel_div : ℚ) }

/-- One step of the country enumeration: append a code not seen yet. -/
def uniqStep (acc : List String) (r : Row) : List String :=
  if acc.contains r.c_abrv then acc else acc ++ [r.c_abrv]

/-- Model of `list(df['c_abrv'].unique())`: the distinct country codes in
first-encountered order. -/
def uniqueCountries (dataframe : List Row) : List String :=
  dataframe.foldl uniqStep []

/-- The driver's first loop: one `process_country` call per country, the
results collected in enumeration order (a Python dict keeps insertion
order); an exception in any call propagates. -/
def buildDict (dataframe : List Row) : List String →
    Except Unit (List (String × CountryAgg))
  | [] => .ok []
  | c :: cs =>
    match process_country dataframe c with
    | .error e => .error e
    | .ok d =>
      match buildDict dataframe cs with
      | .error e => .error e
      | .ok rest => .ok ((c, d) :: rest)

/-- The header row the driver writes: `'country'` followed by the keys of
a country dict in insertion order. -/
def headerRow : List String :=
  ["country", "rel", "nonrel", "a_adp_rel", "a_adp_nonrel", "a_div_rel",
   "a_div_nonrel"]

/-- The `__main__` table construction: build the per-country dictionary,
then the header (read off `dictionary[country].keys()`, which raises
`NameError` when the country loop ran zero times) and one row per country
in enumeration order.  Serialization of the rows to text is out of scope;
the table keeps each row as the country code with its aggregate record,
whose fields are in the header's column order. -/
def driver_table (dataframe : List Row) :
    Except Unit (List String × List (String × CountryAgg)) :=
  match buildDict dataframe (uniqueCountries dataframe) with
  | .error e => .error e
  | .ok [] => .error ()
  | .ok dict => .ok (headerRow, dict)

/-- Update of the counters by an already-classified participant result:
nothing for an excluded (`none`) respondent, `applyTuple` otherwise.  Used
to express what one loop iteration contributes. -/
def stepOpt (st : Counters) (o : Option (Bool × Option ℚ × Option ℚ)) :
    Counters :=
  match o with
  | none => st
  | some t => applyTuple st t

/-- Whether the loop keeps (counts) the participant looked up by the
`caseno` of `r`: true exactly when `process_participant` classifies it. -/
def keptB (dfc : List Row) (r : Row) : Bool :=
  match process_participant dfc r.caseno with
  | .ok (some _) => true
  | _ => false

/-- The three-respondent Spain scenario of the specification: a religious
respondent (adoption `agree`, divorce `never`), a non-religious respondent
(adoption answer unrecognized, divorce `5`) and an undetermined
respondent. -/
def esDf : List Row :=
  [⟨"ES", 1, "very important", "agree", "never"⟩,
   ⟨"ES", 2, "not important", "no answer", "5"⟩,
   ⟨"ES", 3, "do not know", "agree", "5"⟩]

/-- A two-country dataframe with interleaved rows, every group of every
country having one respondent with both scores present. -/
def wDf : List Row :=
  [⟨"ES", 1, "very important", "agree", "never"⟩,
   ⟨"FR", 10, "not important", "agree", "5"⟩,
   ⟨"ES", 2, "not important", "disagree", "never"⟩,
   ⟨"FR", 11, "quite important", "agree strongly", "always"⟩]

lemma filter_caseno_head (dfc : List Row) (r : Row) (h : r ∈ dfc) :
    ∃ row, (dfc.filter (fun x => x.caseno == r.caseno)).head? = some row := by
  have hmem : r ∈ dfc.filter (fun x => x.caseno == r.caseno) := by
    rw [List.mem_filter]
    exact ⟨h, by simp⟩
  cases hF : dfc.filter (fun x => x.caseno == r.caseno) with
  | nil => rw [hF] at hmem; cases hmem
  | cons a as => exact ⟨a, rfl⟩

lemma process_participant_mem (dfc : List Row) (r : Row) (h : r ∈ dfc) :
    ∃ row, (dfc.filter (fun x => x.caseno == r.caseno)).head? = some row ∧
      process_participant dfc r.caseno = .ok (classifyRow row) := by
  obtain ⟨row, hrow⟩ := filter_caseno_head dfc r h
  exact ⟨row, hrow, by simp [process_participant, hrow]⟩

lemma keptB_true_iff (dfc : List Row) (r : Row) (h : r ∈ dfc) :
    keptB dfc r = true ↔ process_participant dfc r.caseno ≠ .ok none := by
  obtain ⟨row, _, hpp⟩ := process_participant_mem dfc r h
  rw [keptB, hpp]
  cases hcr : classifyRow row <;> simp

lemma applyTuple_rel_count (st : Counters) (t : Bool × Option ℚ × Option ℚ) :
    (applyTuple st t).n_religious + (applyTuple st t).n_nonreligious =
      st.n_religious + st.n_nonreligious + 1 := by
  obtain ⟨b, adp, div⟩ := t
  cases b <;> cases adp <;> cases div <;> simp [applyTuple] <;> omega

lemma countryLoop_rel_count (dfc : List Row) :
    ∀ (rows : List Row) (st0 st : Counters),
      countryLoop dfc rows st0 = .ok st →
      st.n_religious + st.n_nonreligious =
        st0.n_religious + st0.n_nonreligious +
          rows.countP (fun r => keptB dfc r) := by
  intro rows
  induction rows with
  | nil =>
    intro st0 st h
    simp only [countryLoop] at h
    injection h with h
    subst h
    simp
  | cons r rs ih =>
    intro st0 st h
    simp only [countryLoop] at h
    cases hp : process_participant dfc r.caseno with
    | error e => rw [hp] at h; cases h
    | ok o =>
      cases o with
      | none =>
        rw [hp] at h
        rw [ih st0 st h, List.countP_cons]
        simp [keptB, hp]
      | some t =>
        rw [hp] at h
        rw [ih (applyTuple st0 t) st h, applyTuple_rel_count,
          List.countP_cons]
        simp [keptB, hp]
        omega

lemma categoryDic_cases (s : String) (r : Nat) (h : categoryDic s = some r) :
    r = 1 ∨ r = 2 ∨ r = 3 ∨ r = 4 ∨ r = 5 := by
  simp only [categoryDic] at h
  split_ifs at h <;> simp_all

lemma a_adp_values (row : Row) (q : ℚ) (h : a_adp row = some q) :
    q = -1 ∨ q = -1/2 ∨ q = 0 ∨ q = 1/2 ∨ q = 1 := by
  cases hcd : categoryDic row.v82 with
  | none => simp [a_adp, hcd] at h
  | some r =>
    have h5 := categoryDic_cases _ _ hcd
    have hq : q = -((r : ℚ) - 3) / 2 := by
      simp only [a_adp, hcd, Option.map_some'] at h
      injection h with h
      exact h.symm
    rcases h5 with h5|h5|h5|h5|h5 <;> subst h5 <;> rw [hq] <;> norm_num

lemma pyInt_never (v : ℤ) (s : String) (hp : pyInt s = some v) :
    s ≠ "never" := by
  intro he
  rw [he, show pyInt "never" = none from rfl] at hp
  cases hp

lemma pyInt_always (v : ℤ) (s : String) (hp : pyInt s = some v) :
    s ≠ "always" := by
  intro he
  rw [he, show pyInt "always" = none from rfl] at hp
  cases hp

lemma a_div_of_pyInt (row : Row) (v : ℤ) (hp : pyInt row.v155 = some v) :
    a_div row = some (((v : ℚ) - 11 / 2) / (9 / 2)) := by
  simp [a_div, pyInt_never v _ hp, pyInt_always v _ hp, hp]

lemma divScore_mem_iff (v : ℤ) :
    (-1 ≤ ((v : ℚ) - 11 / 2) / (9 / 2) ∧ ((v : ℚ) - 11 / 2) / (9 / 2) ≤ 1)
      ↔ 1 ≤ v ∧ v ≤ 10 := by
  rw [le_div_iff₀ (by norm_num : (0:ℚ) < 9 / 2),
    div_le_one (by norm_num : (0:ℚ) < 9 / 2)]
  constructor
  · rintro ⟨h1, h2⟩
    refine ⟨?_, ?_⟩
    · exact_mod_cast (by linarith : (1:ℚ) ≤ (v : ℚ))
    · exact_mod_cast (by linarith : ((v : ℚ)) ≤ 10)
  · rintro ⟨h1, h2⟩
    have h1q : (1:ℚ) ≤ (v : ℚ) := by exact_mod_cast h1
    have h2q : ((v : ℚ)) ≤ 10 := by exact_mod_cast h2
    constructor <;> linarith

lemma divScore_out (v : ℤ) (h : v < 1 ∨ 10 < v) :
    ((v : ℚ) - 11 / 2) / (9 / 2) < -1 ∨ 1 < ((v : ℚ) - 11 / 2) / (9 / 2) := by
  rcases h with h | h
  · left
    rw [div_lt_iff₀ (by norm_num : (0:ℚ) < 9 / 2)]
    have : (v : ℚ) ≤ 0 := by exact_mod_cast (by omega : v ≤ 0)
    linarith
  · right
    rw [lt_div_iff₀ (by norm_num : (0:ℚ) < 9 / 2)]
    have : (11 : ℚ) ≤ (v : ℚ) := by exact_mod_cast (by omega : (11:ℤ) ≤ v)
    linarith

lemma uniqStep_mem (acc : List String) (r : Row) (c : String) :
    c ∈ uniqStep acc r ↔ c ∈ acc ∨ c = r.c_abrv := by
  simp only [uniqStep]
  split_ifs with hc
  · simp only [List.contains, List.elem_eq_mem, decide_eq_true_eq] at hc
    constructor
    · exact Or.inl
    · rintro (h | h)
      · exact h
      · subst h; exact hc
  · simp [List.mem_append]

lemma uniqStep_nodup (acc : List String) (r : Row) (h : acc.Nodup) :
    (uniqStep acc r).Nodup := by
  simp only [uniqStep]
  split_ifs with hc
  · exact h
  · simp only [List.contains, List.elem_eq_mem, decide_eq_true_eq] at hc
    rw [List.nodup_append]
    refine ⟨h, List.nodup_singleton _, ?_⟩
    intro a ha hb
    rw [List.mem_singleton] at hb
    subst hb
    exact hc ha

lemma foldl_uniqStep_nodup :
    ∀ (df : List Row) (acc : List String), acc.Nodup →
      (df.foldl uniqStep acc).Nodup := by
  intro df
  induction df with
  | nil => intro acc h; simpa using h
  | cons r rs ih =>
    intro acc h
    simpa using ih (uniqStep acc r) (uniqStep_nodup acc r h)

lemma foldl_uniqStep_mem :
    ∀ (df : List Row) (acc : List String) (c : String),
      c ∈ df.foldl uniqStep acc ↔ c ∈ acc ∨ ∃ r ∈ df, r.c_abrv = c := by
  intro df
  induction df with
  | nil => intro acc c; simp
  | cons r rs ih =>
    intro acc c
    simp only [List.foldl_cons]
    rw [ih (uniqStep acc r) c, uniqStep_mem]
    constructor
    · rintro ((h | h) | ⟨x, hx, he⟩)
      · exact Or.inl h
      · exact Or.inr ⟨r, by simp, h.symm⟩
      · exact Or.inr ⟨x, by simp [hx], he⟩
    · rintro (h | ⟨x, hx, he⟩)
      · exact Or.inl (Or.inl h)
      · rcases List.mem_cons.mp hx with hx | hx
        · subst hx; exact Or.inl (Or.inr he.symm)
        · exact Or.inr ⟨x, hx, he⟩

lemma buildDict_ok (df : List Row) :
    ∀ (cs : List String) (l : List (String × CountryAgg)),
      buildDict df cs = .ok l →
      l.map Prod.fst = cs ∧ ∀ p ∈ l, process_country df p.1 = .ok p.2 := by
  intro cs
  induction cs with
  | nil =>
    intro l h
    simp only [buildDict] at h
    injection h with h
    subst h
    simp
  | cons c cs ih =>
    intro l h
    simp only [buildDict] at h
    cases hc : process_country df c with
    | error e => rw [hc] at h; cases h
    | ok d =>
      rw [hc] at h
      cases hrest : buildDict df cs with
      | error e => rw [hrest] at h; cases h
      | ok rest =>
        rw [hrest] at h
        injection h with h
        subst h
        obtain ⟨h1, h2⟩ := ih rest hrest
        refine ⟨by simp [h1], ?_⟩
        intro p hp
        rcases List.mem_cons.mp hp with hp | hp
        · subst hp; exact hc
        · exact h2 p hp

/-- C3: for every input to the divorce mapper `a_div`, the literal
`never` maps to `-1`, the literal `always` maps to `+1`, any value parsing
as an integer `v` in `[1, 10]` maps to `(v - 5.5) / 4.5`, and any value
that fails to parse as an integer and is not one of the two literal
endpoints yields missing (`none`). -/
theorem a_div_mapper_spec (row : Row) :
    (row.v155 = "never" → a_div row = some (-1)) ∧
    (row.v155 = "always" → a_div row = some 1) ∧
    (∀ v : ℤ, pyInt row.v155 = some v → 1 ≤ v → v ≤ 10 →
      a_div row = some (((v : ℚ) - 11 / 2) / (9 / 2))) ∧
    (pyInt row.v155 = none → row.v155 ≠ "never" → row.v155 ≠ "always" →
      a_div row = none) := by
  refine ⟨?_, ?_, ?_, ?_⟩
  · intro h
    simp only [a_div, h, if_pos rfl, Option.map_some']
    norm_num
  · intro h
    have hne : ¬("always" = "never") := by decide
    simp only [a_div, h, if_neg hne, if_pos rfl, Option.map_some']
    norm_num
  · intro v hp _ _
    exact a_div_of_pyInt row v hp
  · intro hp h1 h2
    simp [a_div, h1, h2, hp]

/-- Witness for C3 at the four kinds of concrete inputs. -/
theorem a_div_mapper_spec_witness :
    a_div ⟨"ES", 1, "x", "x", "never"⟩ = some (-1) ∧
    a_div ⟨"ES", 2, "x", "x", "always"⟩ = some 1 ∧
    a_div ⟨"ES", 3, "x", "x", "7"⟩ = some (((7 : ℤ) - 11 / 2) / (9 / 2) : ℚ) ∧
    a_div ⟨"ES", 4, "x", "x", "no answer"⟩ = none :=
  ⟨(a_div_mapper_spec _).1 rfl,
   (a_div_mapper_spec _).2.1 rfl,
   (a_div_mapper_spec _).2.2.1 7 rfl (by norm_num) (by norm_num),
   (a_div_mapper_spec _).2.2.2 rfl (by decide) (by decide)⟩

/-- C4: for every input to the adoption mapper `a_adp`, each of the five
recognized categories maps to its rank and the output is `-(rank - 3) / 2`
(`agree strongly ↦ 1`, neutral `↦ 0`, `disagree strongly ↦ -1`); every
recognized output lies in `{-1, -1/2, 0, 1/2, 1}` and every unrecognized
or absent category yields missing (`none`) rather than `0`. -/
theorem a_adp_mapper_spec (row : Row) :
    (row.v82 = "agree strongly" → a_adp row = some 1) ∧
    (row.v82 = "agree" → a_adp row = some (1/2)) ∧
    (row.v82 = "neither agree nor disagree" → a_adp row = some 0) ∧
    (row.v82 = "disagree" → a_adp row = some (-(1/2))) ∧
    (row.v82 = "disagree strongly" → a_adp row = some (-1)) ∧
    (∀ r : ℕ, categoryDic row.v82 = some r →
      a_adp row = some (-((r : ℚ) - 3) / 2)) ∧
    (∀ q : ℚ, a_adp row = some q →
      q = -1 ∨ q = -1/2 ∨ q = 0 ∨ q = 1/2 ∨ q = 1) ∧
    (categoryDic row.v82 = none → a_adp row = none) := by
  refine ⟨?_, ?_, ?_, ?_, ?_, ?_, ?_, ?_⟩
  · intro h
    simp [a_adp, categoryDic, h] <;> norm_num
  · intro h
    simp [a_adp, categoryDic, h] <;> norm_num
  · intro h
    simp [a_adp, categoryDic, h] <;> norm_num
  · intro h
    simp [a_adp, categoryDic, h] <;> norm_num
  · intro h
    simp [a_adp, categoryDic, h] <;> norm_num
  · intro r hr
    simp [a_adp, hr]
  · exact a_adp_values row
  · intro h
    simp [a_adp, h]

/-- Witness for C4 at concrete category answers. -/
theorem a_adp_mapper_spec_witness :
    a_adp ⟨"ES", 1, "x", "agree strongly", "x"⟩ = some 1 ∧
    a_adp ⟨"ES", 2, "x", "neither agree nor disagree", "x"⟩ = some 0 ∧
    a_adp ⟨"ES", 3, "x", "disagree strongly", "x"⟩ = some (-1) ∧
    a_adp ⟨"ES", 4, "x", "no answer", "x"⟩ = none :=
  ⟨(a_adp_mapper_spec _).1 rfl,
   (a_adp_mapper_spec _).2.2.1 rfl,
   (a_adp_mapper_spec _).2.2.2.2.1 rfl,
   (a_adp_mapper_spec _).2.2.2.2.2.2.2 rfl⟩

/-- C2 counterexample: the divorce answer `"100"` parses as an integer,
is mapped by `a_div` to the score `21`, and `21` does not lie in the
interval `[-1, 1]`; the claim that every non-missing derived score lies in
`[-1, 1]` is therefore false of the code. -/
theorem score_range_counterexample :
    a_div ⟨"ES", 1, "quite important", "agree", "100"⟩ = some 21 ∧
    ¬(-1 ≤ (21 : ℚ) ∧ (21 : ℚ) ≤ 1) := by
  constructor
  · rw [a_div_of_pyInt ⟨"ES", 1, "quite important", "agree", "100"⟩ 100 rfl]
    norm_num
  · norm_num

/-- C2 amended: every non-missing `a_adp` score lies in `[-1, 1]`; a
non-missing `a_div` score lies in `[-1, 1]` when the answer is one of the
literal endpoints or parses to an integer in `[1, 10]`, while an answer
parsing to an integer outside `[1, 10]` (unchecked by the code) yields a
score strictly outside `[-1, 1]`. -/
theorem score_range_amended (row : Row) :
    (∀ q : ℚ, a_adp row = some q → -1 ≤ q ∧ q ≤ 1) ∧
    ((row.v155 = "never" ∨ row.v155 = "always") →
      ∀ q : ℚ, a_div row = some q → -1 ≤ q ∧ q ≤ 1) ∧
    (∀ v : ℤ, pyInt row.v155 = some v → 1 ≤ v → v ≤ 10 →
      ∀ q : ℚ, a_div row = some q → -1 ≤ q ∧ q ≤ 1) ∧
    (∀ v : ℤ, pyInt row.v155 = some v → (v < 1 ∨ 10 < v) →
      ∀ q : ℚ, a_div row = some q → q < -1 ∨ 1 < q) := by
  refine ⟨?_, ?_, ?_, ?_⟩
  · intro q h
    rcases a_adp_values row q h with h|h|h|h|h <;> subst h <;> norm_num
  · rintro (h | h) <;> intro q hq
    · simp only [a_div, h, if_pos rfl, Option.map_some'] at hq
      injection hq with hq
      subst hq
      norm_num
    · have hne : ¬("always" = "never") := by decide
      simp only [a_div, h, if_neg hne, if_pos rfl, Option.map_some'] at hq
      injection hq with hq
      subst hq
      norm_num
  · intro v hp h1 h10 q hq
    rw [a_div_of_pyInt row v hp] at hq
    injection hq with hq
    subst hq
    exact (divScore_mem_iff v).mpr ⟨h1, h10⟩
  · intro v hp hout q hq
    rw [a_div_of_pyInt row v hp] at hq
    injection hq with hq
    subst hq
    exact divScore_out v hout

/-- Witness for the amended C2 at a concrete recognized category. -/
theorem score_range_amended_witness :
    a_adp ⟨"ES", 1, "x", "agree", "7"⟩ = some (1/2) ∧
    -1 ≤ (1/2 : ℚ) ∧ (1/2 : ℚ) ≤ 1 := by
  have h : a_adp ⟨"ES", 1, "x", "agree", "7"⟩ = some (1/2) := by
    simp [a_adp, categoryDic] <;> norm_num
  exact ⟨h, (score_range_amended _).1 (1/2) h⟩

/-- C1: `process_country` computes the four group means as `sum / count`
with no zero guard — whenever one of the four contributor counts produced
by the counting loop is zero the call raises (`.error ()`, the
`ZeroDivisionError`) instead of returning a result, and when all four are
nonzero it returns the record of the counts and the four quotients. -/
theorem process_country_divzero (df : List Row) (country : String)
    (st : Counters)
    (h : countryLoop (countryFrame df country) (countryFrame df country)
      initCounters = .ok st) :
    ((st.n_rel_adp = 0 ∨ st.n_nonrel_adp = 0 ∨ st.n_rel_div = 0 ∨
        st.n_nonrel_div = 0) → process_country df country = .error ()) ∧
    (st.n_rel_adp ≠ 0 → st.n_nonrel_adp ≠ 0 → st.n_rel_div ≠ 0 →
      st.n_nonrel_div ≠ 0 →
      process_country df country = .ok
        { rel := st.n_religious
          nonrel := st.n_nonreligious
          a_adp_rel := st.sum_a_adp_rel / (st.n_rel_adp : ℚ)
          a_adp_nonrel := st.sum_a_adp_nonrel / (st.n_nonrel_adp : ℚ)
          a_div_rel := st.sum_a_div_rel / (st.n_rel_div : ℚ)
          a_div_nonrel := st.sum_a_div_nonrel / (st.n_nonrel_div : ℚ) }) := by
  constructor
  · intro hz
    simp only [process_country, h]
    rw [if_pos hz]
  · intro h1 h2 h3 h4
    simp only [process_country, h]
    rw [if_neg (by tauto)]

/-- Witness for C1: a country whose only respondent is religious with an
unrecognized adoption answer has a zero adoption-contributor count, and
`process_country` raises on it. -/
theorem process_country_divzero_witness :
    process_country [⟨"ES", 1, "very important", "no answer", "never"⟩]
      "ES" = .error () := by
  have h : countryLoop
      (countryFrame [⟨"ES", 1, "very important", "no answer", "never"⟩]
        "ES")
      (countryFrame [⟨"ES", 1, "very important", "no answer", "never"⟩]
        "ES") initCounters = .ok ⟨1, 0, 0, 0, 1, 0, 0, 0, -1, 0⟩ := by
    simp [countryLoop, countryFrame, process_participant, classifyRow,
      applyTuple, a_adp, a_div, categoryDic, initCounters] <;> norm_num
  exact (process_country_divzero _ _ _ h).1 (Or.inl rfl)

/-- C7 (code bug): on the three-respondent Spain scenario the counting
loop yields `rel = 1`, `nonrel = 1`, adoption sum `1/2` over one religious
contributor, divorce sums `-1` and `-1/9` over one contributor each, and
zero non-religious adoption contributors — so `process_country` raises a
`ZeroDivisionError` (`.error ()`) instead of returning the aggregate with
`a_adp_nonrel` reported missing that the specification expects. -/
theorem es_scenario_raises :
    countryLoop (countryFrame esDf "ES") (countryFrame esDf "ES")
      initCounters = .ok ⟨1, 1, 1, 0, 1, 1, 1/2, 0, -1, -1/9⟩ ∧
    process_country esDf "ES" = .error () := by
  have h : countryLoop (countryFrame esDf "ES") (countryFrame esDf "ES")
      initCounters = .ok ⟨1, 1, 1, 0, 1, 1, 1/2, 0, -1, -1/9⟩ := by
    simp [esDf, countryLoop, countryFrame, process_participant, classifyRow,
      applyTuple, a_adp, a_div, categoryDic, initCounters,
      show pyInt "5" = some 5 from rfl] <;> norm_num
  refine ⟨h, ?_⟩
  simp [process_country, h]

/-- C5: `process_participant` classifies the looked-up row by its
religiosity answer — `not at all important`/`not important` to
non-religious, `quite important`/`very important` to religious, anything
else to undetermined, returning `none` — and the aggregation loop of
`process_country` leaves the counters untouched for an undetermined
respondent, while a classified one yields the triple of flag and the two
optional scores. -/
theorem participant_classification :
    (∀ (dfc : List Row) (c : ℤ) (row : Row),
      (dfc.filter (fun x => x.caseno == c)).head? = some row →
      (((row.v6 = "not at all important" ∨ row.v6 = "not important") →
         process_participant dfc c =
           .ok (some (false, a_adp row, a_div row))) ∧
       ((row.v6 = "quite important" ∨ row.v6 = "very important") →
         process_participant dfc c =
           .ok (some (true, a_adp row, a_div row))) ∧
       (row.v6 ∉ ["not at all important", "not important",
          "quite important", "very important"] →
         process_participant dfc c = .ok none))) ∧
    (∀ (dfc : List Row) (r : Row) (rs : List Row) (st : Counters),
      process_participant dfc r.caseno = .ok none →
      countryLoop dfc (r :: rs) st = countryLoop dfc rs st) := by
  constructor
  · intro dfc c row hrow
    refine ⟨?_, ?_, ?_⟩
    · rintro (hv | hv) <;>
        simp [process_participant, hrow, classifyRow, hv]
    · rintro (hv | hv) <;>
        simp [process_participant, hrow, classifyRow, hv]
    · intro hv
      simp only [List.mem_cons, List.not_mem_nil, or_false, not_or] at hv
      obtain ⟨n1, n2, n3, n4⟩ := hv
      simp [process_participant, hrow, classifyRow, n1, n2, n3, n4]
  · intro dfc r rs st hpp
    simp [countryLoop, hpp]

/-- Witness for C5: an undetermined respondent is classified to `none` and
its loop iteration leaves the counter state exactly as skipping the row
would. -/
theorem participant_classification_witness :
    process_participant [⟨"ES", 7, "do not know", "agree", "5"⟩] 7 =
      .ok none ∧
    countryLoop [⟨"ES", 7, "do not know", "agree", "5"⟩]
        [⟨"ES", 7, "do not know", "agree", "5"⟩] initCounters =
      countryLoop [⟨"ES", 7, "do not know", "agree", "5"⟩] []
        initCounters := by
  have h1 : process_participant [⟨"ES", 7, "do not know", "agree", "5"⟩]
      7 = .ok none :=
    (participant_classification.1 [⟨"ES", 7, "do not know", "agree", "5"⟩]
      7 ⟨"ES", 7, "do not know", "agree", "5"⟩ rfl).2.2 (by decide)
  exact ⟨h1, participant_classification.2
    [⟨"ES", 7, "do not know", "agree", "5"⟩]
    ⟨"ES", 7, "do not know", "agree", "5"⟩ [] initCounters h1⟩

/-- C6: the two group counts produced by the counting loop of
`process_country` count exactly the classified respondents of the country
(regardless of score availability), are bounded by the number of the
country's respondents, and reach that number exactly when no respondent of
the country is excluded as undetermined. -/
theorem country_counts (df : List Row) (country : String) (st : Counters)
    (h : countryLoop (countryFrame df country) (countryFrame df country)
      initCounters = .ok st) :
    st.n_religious + st.n_nonreligious =
      (countryFrame df country).countP
        (fun r => keptB (countryFrame df country) r) ∧
    st.n_religious + st.n_nonreligious ≤ (countryFrame df country).length ∧
    (st.n_religious + st.n_nonreligious = (countryFrame df country).length
      ↔ ∀ r ∈ countryFrame df country,
          process_participant (countryFrame df country) r.caseno ≠
            .ok none) := by
  have hc := countryLoop_rel_count (countryFrame df country)
    (countryFrame df country) initCounters st h
  simp only [initCounters, Nat.zero_add] at hc
  refine ⟨hc, ?_, ?_⟩
  · rw [hc]
    exact List.countP_le_length _
  · rw [hc, List.countP_eq_length]
    constructor
    · intro hall r hr
      exact (keptB_true_iff _ r hr).mp (hall r hr)
    · intro hall r hr
      exact (keptB_true_iff _ r hr).mpr (hall r hr)

/-- Witness for C6: on a country with one religious and one undetermined
respondent the classified count `1 + 0` is at most the two rows of the
country frame. -/
theorem country_counts_witness :
    (1 : ℕ) + (0 : ℕ) ≤
      (countryFrame [⟨"ES", 1, "very important", "agree", "never"⟩,
        ⟨"ES", 2, "do not know", "agree", "5"⟩] "ES").length := by
  have h : countryLoop
      (countryFrame [⟨"ES", 1, "very important", "agree", "never"⟩,
        ⟨"ES", 2, "do not know", "agree", "5"⟩] "ES")
      (countryFrame [⟨"ES", 1, "very important", "agree", "never"⟩,
        ⟨"ES", 2, "do not know", "agree", "5"⟩] "ES") initCounters =
      .ok ⟨1, 0, 1, 0, 1, 0, 1/2, 0, -1, 0⟩ := by
    simp [countryLoop, countryFrame, process_participant, classifyRow,
      applyTuple, a_adp, a_div, categoryDic, initCounters] <;> norm_num
  exact (country_counts _ _ _ h).2.1

/-- C9: `process_participant` raises (`.error ()`, the `IndexError` of
`.iloc[0]` on an empty selection) exactly when the given `caseno` matches
no row of the dataframe. -/
theorem participant_missing_case (df : List Row) (c : ℤ) :
    process_participant df c = .error () ↔ ∀ r ∈ df, r.caseno ≠ c := by
  constructor
  · intro he r hr hceq
    obtain ⟨row, _, hpp⟩ := process_participant_mem df r hr
    rw [hceq] at hpp
    rw [hpp] at he
    cases he
  · intro hall
    have hnil : df.filter (fun x => x.caseno == c) = [] := by
      rw [List.filter_eq_nil_iff]
      intro a ha
      simpa using hall a ha
    simp [process_participant, hnil]

/-- Witness for C9: on the empty dataframe every lookup raises. -/
theorem participant_missing_case_witness :
    process_participant [] 5 = .error () :=
  (participant_missing_case [] 5).mpr (by simp)

/-- C10: every loop iteration of `process_country` classifies the first
row of the frame whose `caseno` matches, so when two rows share a
`caseno` both iterations count the first matching row's answers and the
later row's own answers never contribute. -/
theorem duplicate_caseno_first_wins :
    (∀ (dfc : List Row) (c : ℤ) (r0 : Row),
      (dfc.filter (fun x => x.caseno == c)).head? = some r0 →
      process_participant dfc c = .ok (classifyRow r0)) ∧
    (∀ r1 r2 : Row, r2.caseno = r1.caseno →
      countryLoop [r1, r2] [r1, r2] initCounters =
        .ok (stepOpt (stepOpt initCounters (classifyRow r1))
          (classifyRow r1))) := by
  constructor
  · intro dfc c r0 h
    simp [process_participant, h]
  · intro r1 r2 h
    have hf1 : ([r1, r2].filter
        (fun x => x.caseno == r1.caseno)).head? = some r1 := by
      simp [List.filter_cons]
    have hf2 : ([r1, r2].filter
        (fun x => x.caseno == r2.caseno)).head? = some r1 := by
      simp [List.filter_cons, h]
    have hp1 : process_participant [r1, r2] r1.caseno =
        .ok (classifyRow r1) := by
      simp [process_participant, hf1]
    have hp2 : process_participant [r1, r2] r2.caseno =
        .ok (classifyRow r1) := by
      simp [process_participant, hf2]
    cases hcr : classifyRow r1 with
    | none => simp [countryLoop, hp1, hp2, hcr, stepOpt]
    | some t => simp [countryLoop, hp1, hp2, hcr, stepOpt]

/-- Witness for C10: two same-country rows sharing `caseno 1` with
different answers are both counted as the first row. -/
theorem duplicate_caseno_first_wins_witness :
    countryLoop [⟨"ES", 1, "very important", "agree", "never"⟩,
        ⟨"ES", 1, "not important", "disagree", "5"⟩]
      [⟨"ES", 1, "very important", "agree", "never"⟩,
        ⟨"ES", 1, "not important", "disagree", "5"⟩] initCounters =
      .ok (stepOpt (stepOpt initCounters
          (classifyRow ⟨"ES", 1, "very important", "agree", "never"⟩))
        (classifyRow ⟨"ES", 1, "very important", "agree", "never"⟩)) :=
  duplicate_caseno_first_wins.2
    ⟨"ES", 1, "very important", "agree", "never"⟩
    ⟨"ES", 1, "not important", "disagree", "5"⟩ rfl

/-- C8: whenever the driver completes, the table it writes has the fixed
header `country, rel, nonrel, a_adp_rel, a_adp_nonrel, a_div_rel,
a_div_nonrel` followed by exactly one row per distinct country code of the
dataset in first-encountered order (the enumeration is duplicate-free and
covers exactly the codes present), each row holding that country's
aggregate. -/
theorem driver_table_spec (df : List Row) :
    (uniqueCountries df).Nodup ∧
    (∀ c : String, c ∈ uniqueCountries df ↔ ∃ r ∈ df, r.c_abrv = c) ∧
    (∀ (hdr : List String) (rows : List (String × CountryAgg)),
      driver_table df = .ok (hdr, rows) →
      hdr = headerRow ∧ rows.map Prod.fst = uniqueCountries df ∧
        ∀ p ∈ rows, process_country df p.1 = .ok p.2) := by
  refine ⟨foldl_uniqStep_nodup df [] List.nodup_nil, ?_, ?_⟩
  · intro c
    rw [uniqueCountries, foldl_uniqStep_mem]
    simp
  · intro hdr rows h
    simp only [driver_table] at h
    cases hb : buildDict df (uniqueCountries df) with
    | error e => rw [hb] at h; cases h
    | ok dict =>
      rw [hb] at h
      cases dict with
      | nil => cases h
      | cons d ds =>
        injection h with h
        rw [Prod.mk.injEq] at h
        obtain ⟨h1, h2⟩ := h
        obtain ⟨hm, hp⟩ := buildDict_ok df (uniqueCountries df) (d :: ds) hb
        subst h2
        exact ⟨h1.symm, hm, hp⟩

/-- Witness for C8: on the interleaved two-country dataframe the driver
succeeds and its rows list the countries in first-encountered order. -/
theorem driver_table_spec_witness :
    [("ES", (⟨1, 1, 1/2, -(1/2), -1, -1⟩ : CountryAgg)),
      ("FR", (⟨1, 1, 1, 1/2, 1, -1/9⟩ : CountryAgg))].map Prod.fst =
      uniqueCountries wDf := by
  have h : driver_table wDf = .ok (headerRow,
      [("ES", (⟨1, 1, 1/2, -(1/2), -1, -1⟩ : CountryAgg)),
       ("FR", (⟨1, 1, 1, 1/2, 1, -1/9⟩ : CountryAgg))]) := by
    simp [wDf, driver_table, buildDict, uniqueCountries, uniqStep,
      process_country, countryFrame, countryLoop, process_participant,
      classifyRow, applyTuple, a_adp, a_div, categoryDic, initCounters,
      headerRow, show pyInt "5" = some 5 from rfl] <;> norm_num
  exact ((driver_table_spec wDf).2.2 headerRow _ h).2.1
